import Mathlib

/-!
Verification of the crop-image batch classification and evaluation pipeline.

The development shallowly embeds the data-processing core of the repository:

* `evaluate_accuracy.py`  — loading the predictions table, overall accuracy,
  per-crop statistics, misclassified images;
* `utils.py`              — the vision-API adapter boundary and the answer
  (label) table loader;
* `classify_images.py`    — the per-image batch loop;
* `create_answer_template.py` — the answer template generator.

File I/O is abstracted: a table on disk is represented by an existence flag
together with the outcome of each candidate text encoding, in the order the
scripts try them (an entry is `none` when that encoding raises a decoding or
key error, `some rows` when the whole file decodes to structured rows).
Python floats are modelled as exact rationals, Python str.lower and str.strip
as the character-list functions `pyLower` and `pyStrip` below.
-/

namespace ScoreFiles

/-- Model of the Python `str.lower` method: lower-case every character. -/
def pyLower (s : String) : String :=
  String.mk (s.data.map Char.toLower)

/-- Model of the Python `str.strip` method: drop whitespace from both ends. -/
def pyStrip (s : String) : String :=
  String.mk (((s.data.dropWhile Char.isWhitespace).reverse.dropWhile
      Char.isWhitespace).reverse)

/-- Errors raised by the two table loaders: `fileNotFound` models the raised
`FileNotFoundError`, `unreadableFormat` the raised `ValueError` used for an
unreadable or empty table. -/
inductive TableError
  | fileNotFound
  | unreadableFormat
deriving DecidableEq, Repr

/-- One row of the predictions table, and also one in-memory prediction
record built by the batch driver: fields `filename`, `true_label`,
`pred_label`, `pred_confidence`. -/
structure Prediction where
  filename : String
  true_label : String
  pred_label : String
  pred_confidence : ℚ
deriving DecidableEq, Repr

/-- The encoding fallback loop shared by both loaders: candidate encodings
are tried in order, the first one that decodes the whole file wins, later
candidates are never consulted. -/
def firstSuccess {α : Type} : List (Option α) → Option α
  | [] => none
  | none :: rest => firstSuccess rest
  | some a :: _ => some a

/-- The row loop of `load_predictions_from_csv`: every row whose
`pred_label` is exactly the string ERROR is skipped, all other rows are
appended in order. -/
def readPredictionRows : List Prediction → List Prediction
  | [] => []
  | row :: rest =>
    if row.pred_label = "ERROR" then readPredictionRows rest
    else row :: readPredictionRows rest

/-- `load_predictions_from_csv` of `evaluate_accuracy.py`: absent file
raises `fileNotFound`; otherwise the first encoding that decodes yields the
rows, the ERROR rows are dropped, and an empty result — whether from decode
failure of every encoding or from every row being dropped — raises
`unreadableFormat`. -/
def load_predictions_from_csv (tableExists : Bool)
    (decoded : List (Option (List Prediction))) :
    Except TableError (List Prediction) :=
  if tableExists = false then .error .fileNotFound
  else
    let predictions :=
      match firstSuccess decoded with
      | none => []
      | some rows => readPredictionRows rows
    if predictions = [] then .error .unreadableFormat
    else .ok predictions

/-- Result of `calculate_overall_accuracy`: the dictionary with keys
`total`, `correct`, `accuracy`. -/
structure AccuracyInfo where
  total : ℕ
  correct : ℕ
  accuracy : ℚ
deriving DecidableEq, Repr

/-- `calculate_overall_accuracy` of `evaluate_accuracy.py`: empty input is
answered directly with zeros; otherwise the loop counts, case-insensitively,
the records whose predicted label matches the true one, and the accuracy is
the percentage `correct / total * 100`. -/
def calculate_overall_accuracy (predictions : List Prediction) : AccuracyInfo :=
  if predictions = [] then ⟨0, 0, 0⟩
  else
    let total_count := predictions.length
    let correct_count := predictions.foldl
      (fun correct_count prediction =>
        if pyLower prediction.true_label = pyLower prediction.pred_label then
          correct_count + 1
        else correct_count) 0
    ⟨total_count, correct_count, (correct_count : ℚ) / (total_count : ℚ) * 100⟩

/-- The per-crop accumulator of `calculate_per_crop_statistics`: the
defaultdict entry with keys `total`, `correct`, `confidence_sum`. -/
structure CropAgg where
  total : ℕ
  correct : ℕ
  confidence_sum : ℚ
deriving DecidableEq, Repr

/-- The grouping loop of `calculate_per_crop_statistics`, projected to one
key `c`: exactly the iterations whose record has `true_label = c` touch the
entry of `c`, incrementing `total`, adding the confidence, and incrementing
`correct` on a case-insensitive label match. -/
def cropAgg (predictions : List Prediction) (c : String) : CropAgg :=
  predictions.foldl
    (fun acc prediction =>
      if prediction.true_label = c then
        { total := acc.total + 1
          correct := acc.correct +
            (if pyLower prediction.true_label = pyLower prediction.pred_label
             then 1 else 0)
          confidence_sum := acc.confidence_sum + prediction.pred_confidence }
      else acc)
    ⟨0, 0, 0⟩

/-- One value of the dictionary returned by `calculate_per_crop_statistics`. -/
structure CropStats where
  total : ℕ
  correct : ℕ
  accuracy : ℚ
  avg_confidence : ℚ
deriving DecidableEq, Repr

/-- The statistics entry computed for one crop name present in the data. -/
def cropStatsOf (predictions : List Prediction) (c : String) : CropStats :=
  let data := cropAgg predictions c
  { total := data.total
    correct := data.correct
    accuracy := (data.correct : ℚ) / (data.total : ℚ) * 100
    avg_confidence := data.confidence_sum / (data.total : ℚ) }

/-- `calculate_per_crop_statistics` of `evaluate_accuracy.py`: one entry per
distinct `true_label` occurring in the data. The Python dict iterates keys
in first-insertion order; the key order is display-only, and `List.dedup`
is used here for its lemma support. -/
def calculate_per_crop_statistics (predictions : List Prediction) :
    List (String × CropStats) :=
  ((predictions.map (·.true_label)).dedup).map
    (fun c => (c, cropStatsOf predictions c))

/-- `find_misclassified_images` of `evaluate_accuracy.py`: the records whose
labels differ case-insensitively, appended in their original order. -/
def find_misclassified_images : List Prediction → List Prediction
  | [] => []
  | prediction :: rest =>
    if pyLower prediction.true_label ≠ pyLower prediction.pred_label then
      prediction :: find_misclassified_images rest
    else find_misclassified_images rest

/-- Everything the evaluation `main` computes and displays on success. -/
structure EvalReport where
  overall : AccuracyInfo
  byCrop : List (String × CropStats)
  misclassified : List Prediction
deriving DecidableEq, Repr

/-- Observable outcome of the evaluation `main`: `missingFileMsg` is the
caught `FileNotFoundError` (guidance printed, clean stop); `uncaughtError`
is the `ValueError` of the loader, which `main` does not catch;
`nothingToEvaluate` is the guard answering when the loader returns an empty
list; `report` is the normal display path. -/
inductive EvalOutcome
  | missingFileMsg
  | uncaughtError
  | nothingToEvaluate
  | report (r : EvalReport)
deriving DecidableEq, Repr

/-- The `main` of `evaluate_accuracy.py`. -/
def evaluate_main (tableExists : Bool)
    (decoded : List (Option (List Prediction))) : EvalOutcome :=
  match load_predictions_from_csv tableExists decoded with
  | .error .fileNotFound => .missingFileMsg
  | .error .unreadableFormat => .uncaughtError
  | .ok predictions =>
    if predictions = [] then .nothingToEvaluate
    else .report
      ⟨calculate_overall_accuracy predictions,
       calculate_per_crop_statistics predictions,
       find_misclassified_images predictions⟩

/-- What one call of the vision API can come back with, as seen by
`call_vision_api` in `utils.py`: an exception in the request itself, a
response text that is not valid JSON, valid JSON that is not an object, or
a JSON object of which only the `crop` and `confidence` fields matter (each
possibly absent). -/
inductive VisionResponse
  | apiError
  | parseFailure
  | nonObject
  | object (crop : Option String) (confidence : Option ℚ)
deriving DecidableEq, Repr

/-- A successfully json-parsed response value, as returned by
`call_vision_api`. -/
inductive ParsedJson
  | nonObject
  | object (crop : Option String) (confidence : Option ℚ)
deriving DecidableEq, Repr

/-- `call_vision_api` of `utils.py`: any exception during the request and
any JSON parse failure return `none`; any successfully parsed JSON value is
returned as-is, object or not. -/
def call_vision_api : VisionResponse → Option ParsedJson
  | .apiError => none
  | .parseFailure => none
  | .nonObject => some .nonObject
  | .object crop confidence => some (.object crop confidence)

/-- `classify_single_image` of `classify_images.py`: a `none` from the
adapter becomes the ERROR record with zero confidence; a parsed non-object
makes the dict-get raise, the surrounding try-except catches it and again
returns the ERROR record; a parsed object is read with
`get("crop", "unknown")` and `get("confidence", 0.0)`. The function is
total: no exception escapes to the batch loop. -/
def classify_single_image (filename : String) (true_label : String)
    (response : VisionResponse) : Prediction :=
  match call_vision_api response with
  | none => ⟨filename, true_label, "ERROR", 0⟩
  | some .nonObject => ⟨filename, true_label, "ERROR", 0⟩
  | some (.object crop confidence) =>
    ⟨filename, true_label, crop.getD "unknown", confidence.getD 0⟩

/-- The per-image loop of `main` in `classify_images.py`: for each filename
in order, `answers_dict.get(filename, "unknown")` fetches the true label;
when it is the string unknown the image is skipped and reported as having
no label; otherwise the image is classified and exactly one record is
appended. Returns the record list and the skipped filenames; the oracle
maps each image to the response of the vision API for it. -/
def run_batch (oracle : String → VisionResponse)
    (answers_dict : List (String × String)) :
    List String → List Prediction × List String
  | [] => ([], [])
  | filename :: rest =>
    let true_label := (answers_dict.lookup filename).getD "unknown"
    let processed := run_batch oracle answers_dict rest
    if true_label = "unknown" then (processed.1, filename :: processed.2)
    else
      (classify_single_image filename true_label (oracle filename)
          :: processed.1,
        processed.2)

/-- One row of the answer table: the `filename` and `label` columns. -/
structure AnswerRow where
  filename : String
  label : String
deriving DecidableEq, Repr

/-- Python dict assignment on a string-keyed dict: an existing key keeps
its position and is overwritten, a new key is appended. -/
def dictInsert (d : List (String × String)) (k v : String) :
    List (String × String) :=
  if d.any (fun kv => kv.1 = k) then
    d.map (fun kv => if kv.1 = k then (k, v) else kv)
  else d ++ [(k, v)]

/-- The row loop of `load_answers_from_csv`: filename and label are
stripped; a row whose stripped label is empty is warned about and skipped,
every other row is written into the dict. -/
def readAnswerRows : List AnswerRow → List (String × String) →
    List (String × String)
  | [], labels_dict => labels_dict
  | row :: rest, labels_dict =>
    let filename := pyStrip row.filename
    let label := pyStrip row.label
    if label = "" then readAnswerRows rest labels_dict
    else readAnswerRows rest (dictInsert labels_dict filename label)

/-- `load_answers_from_csv` of `utils.py`: absent file raises
`fileNotFound`; the first encoding that decodes yields the rows; an empty
resulting dict — from decode failure of every encoding or from every row
being skipped — raises `unreadableFormat`. -/
def load_answers_from_csv (tableExists : Bool)
    (decoded : List (Option (List AnswerRow))) :
    Except TableError (List (String × String)) :=
  if tableExists = false then .error .fileNotFound
  else
    let labels_dict :=
      match firstSuccess decoded with
      | none => []
      | some rows => readAnswerRows rows []
    if labels_dict = [] then .error .unreadableFormat
    else .ok labels_dict

/-- A directory entry: its final name component and whether it is a
regular file. -/
structure DirEntry where
  name : String
  isFile : Bool
deriving DecidableEq, Repr

/-- `SUPPORTED_IMAGE_EXTENSIONS` of `utils.py` (batch pipeline). -/
def SUPPORTED_IMAGE_EXTENSIONS : List String := [".jpg", ".jpeg", ".png"]

/-- `SUPPORTED_IMAGE_EXTENSIONS` of `create_answer_template.py`, which
additionally admits bmp and gif. -/
def TEMPLATE_IMAGE_EXTENSIONS : List String :=
  [".jpg", ".jpeg", ".png", ".bmp", ".gif"]

/-- Index of the last dot in a character list, if any. -/
def rfindDot : List Char → Option ℕ
  | [] => none
  | c :: rest =>
    match rfindDot rest with
    | some i => some (i + 1)
    | none => if c = '.' then some 0 else none

/-- The `suffix` property of a Python `pathlib` path: the name from its
last dot onward, provided that dot is neither the first nor the last
character; otherwise the empty string. -/
def pathSuffix (name : String) : String :=
  let cs := name.data
  match rfindDot cs with
  | none => ""
  | some i => if 0 < i ∧ i < cs.length - 1 then String.mk (cs.drop i) else ""

/-- `validate_image_file` of `utils.py`: a regular file whose lower-cased
suffix is a supported image extension. -/
def validate_image_file (e : DirEntry) : Bool :=
  e.isFile && SUPPORTED_IMAGE_EXTENSIONS.contains (pyLower (pathSuffix e.name))

/-- The file filter of `get_all_image_files` in
`create_answer_template.py`: a regular file whose lower-cased suffix is in
the extended extension list. -/
def templateQualifies (e : DirEntry) : Bool :=
  e.isFile && TEMPLATE_IMAGE_EXTENSIONS.contains (pyLower (pathSuffix e.name))

/-- Lexicographic comparison of character lists by code point, the order
Python uses to compare strings. -/
def codepointLe : List Char → List Char → Bool
  | [], _ => true
  | _ :: _, [] => false
  | a :: as, b :: bs =>
    if a.toNat < b.toNat then true
    else if b.toNat < a.toNat then false
    else codepointLe as bs

/-- Model of the Python string comparison used by the sorts. -/
def pyStrLe (a b : String) : Bool := codepointLe a.data b.data

/-- `get_image_files` of `classify_images.py`: the validated entries of the
directory, sorted by name. Only names flow onward, so the sorted name list
is returned; insertion sort is stable, like the sort of Python. -/
def get_image_files (entries : List DirEntry) : List String :=
  ((entries.filter validate_image_file).map (·.name)).insertionSort
    (fun a b => pyStrLe a b = true)

/-- `get_all_image_files` of `create_answer_template.py`: the qualifying
entries of the directory, sorted by name. -/
def get_all_image_files (entries : List DirEntry) : List String :=
  ((entries.filter templateQualifies).map (·.name)).insertionSort
    (fun a b => pyStrLe a b = true)

/-- `create_answer_template` of `create_answer_template.py`: one data row
per image file, in the given order, with the label column left empty. -/
def create_answer_template (image_files : List String) :
    List (String × String) :=
  image_files.map (fun image_file => (image_file, ""))

/-- Well-behavedness of one adapter response: the confidence it reports, if
any, lies in the unit interval. The prompt asks the model for such values
but nothing in the code enforces them. -/
def responseConfidenceBounded : VisionResponse → Prop
  | .object _ (some q) => 0 ≤ q ∧ q ≤ 1
  | _ => True

/-! ## Theorems -/

/-- C10: when loading the predictions table, a row is dropped if and only if
its `pred_label` is exactly the string ERROR — the comparison is
case-sensitive, so case variants such as error or Error are retained and
enter every downstream statistic. -/
theorem error_rows_dropped_iff (rows : List Prediction) :
    readPredictionRows rows
      = rows.filter (fun row => !(row.pred_label == "ERROR")) := by
  induction rows with
  | nil => rfl
  | cons row rest ih =>
    by_cases h : row.pred_label = "ERROR" <;>
      simp [readPredictionRows, List.filter_cons, h, ih]

/-- C1: code bug. On a predictions table that exists, decodes under the
first candidate encoding and has one data row whose `pred_label` is ERROR,
the evaluation main neither reports "nothing to evaluate" nor any report:
the loader drops the row, finds its list empty and raises the ValueError
it reserves for unreadable files, which main does not catch. Moreover the
"nothing to evaluate" guard of main is unreachable on every input. -/
theorem all_error_rows_uncaught_error :
    evaluate_main true [some [⟨"img_1.jpg", "사과", "ERROR", 0⟩]]
        = EvalOutcome.uncaughtError ∧
    ∀ (tableExists : Bool) (decoded : List (Option (List Prediction))),
      evaluate_main tableExists decoded ≠ EvalOutcome.nothingToEvaluate := by
  refine ⟨rfl, ?_⟩
  intro tableExists decoded
  unfold evaluate_main load_predictions_from_csv
  by_cases h : tableExists = false
  · simp [h]
  · simp only [h, if_false]
    cases hf : firstSuccess decoded with
    | none => simp
    | some rows =>
      by_cases hr : readPredictionRows rows = [] <;> simp [hr]

/-- C2 counterexample: an image whose filename has an entry in the label
mapping, with label the string unknown, is skipped by the batch driver and
produces no PredictionRecord — the claim "whatever the label string is" is
false. -/
theorem label_unknown_entry_skipped :
    run_batch (fun _ => VisionResponse.apiError)
        [("img_1.jpg", "unknown")] ["img_1.jpg"]
      = ([], ["img_1.jpg"]) ∧
    List.lookup "img_1.jpg" [("img_1.jpg", "unknown")] = some "unknown" :=
  ⟨rfl, rfl⟩

/-- C2 amended: the batch driver produces exactly one PredictionRecord, in
order, for every image whose label lookup (with dict-get default unknown)
yields a string other than unknown, and skips precisely the images whose
lookup yields unknown — those absent from the mapping or mapped to the
literal label unknown. -/
theorem run_batch_spec (oracle : String → VisionResponse)
    (answers_dict : List (String × String)) (images : List String) :
    run_batch oracle answers_dict images
      = ((images.filter (fun filename =>
            !((answers_dict.lookup filename).getD "unknown" == "unknown"))).map
            (fun filename =>
              classify_single_image filename
                ((answers_dict.lookup filename).getD "unknown")
                (oracle filename)),
          images.filter (fun filename =>
            (answers_dict.lookup filename).getD "unknown" == "unknown")) := by
  induction images with
  | nil => rfl
  | cons filename rest ih =>
    by_cases h : (answers_dict.lookup filename).getD "unknown" = "unknown" <;>
      simp [run_batch, List.filter_cons, h, ih]

/-- C3 counterexample: a response that parses as a JSON object missing both
the crop and confidence fields yields the record with `pred_label`
unknown — not the ERROR sentinel the claim requires for every response that
is not an object with exactly those fields. -/
theorem parseable_object_missing_fields_not_error :
    classify_single_image "img_1.jpg" "사과" (VisionResponse.object none none)
      = ⟨"img_1.jpg", "사과", "unknown", 0⟩ ∧
    ("unknown" : String) ≠ "ERROR" :=
  ⟨rfl, by decide⟩

/-- C3 amended: transport and service errors, JSON parse failures and
parsed non-object responses all map to the record with `pred_label` ERROR
and zero confidence, and classification is a total function, so no
exception escapes to the batch loop; a parsed JSON object, however, is read
with dict-get defaults, so missing fields give the label unknown and zero
confidence rather than the ERROR sentinel. -/
theorem classify_failure_mapping (filename true_label : String)
    (crop : Option String) (confidence : Option ℚ) :
    classify_single_image filename true_label VisionResponse.apiError
        = ⟨filename, true_label, "ERROR", 0⟩ ∧
    classify_single_image filename true_label VisionResponse.parseFailure
        = ⟨filename, true_label, "ERROR", 0⟩ ∧
    classify_single_image filename true_label VisionResponse.nonObject
        = ⟨filename, true_label, "ERROR", 0⟩ ∧
    classify_single_image filename true_label
        (VisionResponse.object crop confidence)
        = ⟨filename, true_label, crop.getD "unknown", confidence.getD 0⟩ :=
  ⟨rfl, rfl, rfl, rfl⟩

/-- C4 counterexample: the adapter response can report any confidence and
any crop string; on crop ERROR with confidence 3/2 the produced record has
`pred_label` ERROR yet `pred_confidence` 3/2, which is neither in the unit
interval nor zero. -/
theorem error_label_unclamped_confidence :
    classify_single_image "img_1.jpg" "사과"
        (VisionResponse.object (some "ERROR") (some (3/2)))
      = ⟨"img_1.jpg", "사과", "ERROR", 3/2⟩ ∧
    ¬((3 : ℚ)/2 ≤ 1) ∧ (3 : ℚ)/2 ≠ 0 :=
  ⟨rfl, by norm_num, by norm_num⟩

/-- C4 amended: whenever the adapter response reports a confidence in the
unit interval (or none at all), the produced record has `pred_confidence`
in the unit interval; and on every adapter-failure path the record is the
ERROR sentinel with confidence exactly zero. The confidence is copied from
the response unvalidated, so the bound holds only under that assumption,
and zero confidence is tied to the failure paths, not to the ERROR label. -/
theorem classify_confidence_spec (filename true_label : String)
    (response : VisionResponse) (h : responseConfidenceBounded response) :
    0 ≤ (classify_single_image filename true_label response).pred_confidence ∧
    (classify_single_image filename true_label response).pred_confidence ≤ 1 ∧
    (call_vision_api response = none →
      (classify_single_image filename true_label response).pred_label = "ERROR" ∧
      (classify_single_image filename true_label response).pred_confidence = 0) := by
  cases response with
  | apiError => exact ⟨le_refl 0, zero_le_one, fun _ => ⟨rfl, rfl⟩⟩
  | parseFailure => exact ⟨le_refl 0, zero_le_one, fun _ => ⟨rfl, rfl⟩⟩
  | nonObject =>
    refine ⟨le_refl 0, zero_le_one, ?_⟩
    intro hnone
    simp [call_vision_api] at hnone
  | object crop confidence =>
    cases confidence with
    | none =>
      refine ⟨le_refl 0, zero_le_one, ?_⟩
      intro hnone
      simp [call_vision_api] at hnone
    | some q =>
      obtain ⟨h0, h1⟩ := h
      refine ⟨h0, h1, ?_⟩
      intro hnone
      simp [call_vision_api] at hnone

/-- Witness for the C4 amended theorem at a concrete in-range response. -/
theorem classify_confidence_spec_witness :
    responseConfidenceBounded
        (VisionResponse.object (some "사과") (some (9/10))) ∧
    (0 ≤ (classify_single_image "img_1.jpg" "사과"
        (VisionResponse.object (some "사과") (some (9/10)))).pred_confidence ∧
      (classify_single_image "img_1.jpg" "사과"
        (VisionResponse.object (some "사과") (some (9/10)))).pred_confidence ≤ 1 ∧
      (call_vision_api (VisionResponse.object (some "사과") (some (9/10)))
            = none →
        (classify_single_image "img_1.jpg" "사과"
          (VisionResponse.object (some "사과") (some (9/10)))).pred_label
            = "ERROR" ∧
        (classify_single_image "img_1.jpg" "사과"
          (VisionResponse.object (some "사과") (some (9/10)))).pred_confidence
            = 0)) := by
  have hb : responseConfidenceBounded
      (VisionResponse.object (some "사과") (some (9/10))) := by
    show (0 : ℚ) ≤ 9/10 ∧ (9 : ℚ)/10 ≤ 1
    norm_num
  exact ⟨hb, classify_confidence_spec "img_1.jpg" "사과" _ hb⟩

theorem correct_foldl_eq (l : List Prediction) (n : ℕ) :
    l.foldl (fun correct_count prediction =>
      if pyLower prediction.true_label = pyLower prediction.pred_label then
        correct_count + 1
      else correct_count) n
    = n + l.countP (fun p => pyLower p.true_label == pyLower p.pred_label) := by
  induction l generalizing n with
  | nil => simp
  | cons p t ih =>
    simp only [List.foldl_cons, List.countP_cons, ih]
    by_cases h : pyLower p.true_label = pyLower p.pred_label <;>
      simp [h] <;> omega

theorem overall_total_eq (predictions : List Prediction) :
    (calculate_overall_accuracy predictions).total = predictions.length := by
  by_cases h : predictions = [] <;> simp [calculate_overall_accuracy, h]

theorem overall_correct_eq (predictions : List Prediction) :
    (calculate_overall_accuracy predictions).correct
      = predictions.countP
          (fun p => pyLower p.true_label == pyLower p.pred_label) := by
  by_cases h : predictions = [] <;>
    simp [calculate_overall_accuracy, h, correct_foldl_eq]

theorem overall_accuracy_eq (predictions : List Prediction) :
    (calculate_overall_accuracy predictions).accuracy
      = ((calculate_overall_accuracy predictions).correct : ℚ)
        / ((calculate_overall_accuracy predictions).total : ℚ) * 100 := by
  by_cases h : predictions = [] <;> simp [calculate_overall_accuracy, h]

/-- C5: the overall AccuracyReport has `total` the number of retained
records, `correct` the number of records whose labels agree
case-insensitively, `accuracy` equal to `correct / total * 100`, and
accuracy zero when `total` is zero. -/
theorem overall_accuracy_spec (predictions : List Prediction) :
    (calculate_overall_accuracy predictions).total = predictions.length ∧
    (calculate_overall_accuracy predictions).correct
      = predictions.countP
          (fun p => pyLower p.true_label == pyLower p.pred_label) ∧
    (calculate_overall_accuracy predictions).accuracy
      = ((calculate_overall_accuracy predictions).correct : ℚ)
        / ((calculate_overall_accuracy predictions).total : ℚ) * 100 ∧
    ((calculate_overall_accuracy predictions).total = 0 →
      (calculate_overall_accuracy predictions).accuracy = 0) := by
  refine ⟨overall_total_eq _, overall_correct_eq _, overall_accuracy_eq _, ?_⟩
  intro h0
  rw [overall_accuracy_eq, h0]
  simp

/-- Witness for the C5 theorem: the empty record set has total zero and the
accuracy definition answers zero there. -/
theorem overall_accuracy_spec_witness :
    (calculate_overall_accuracy []).total = 0 ∧
    (calculate_overall_accuracy []).accuracy = 0 :=
  ⟨rfl, (overall_accuracy_spec []).2.2.2 rfl⟩

theorem countP_bool_split {α : Type} (p : α → Bool) (l : List α) :
    l.countP p + l.countP (fun a => !(p a)) = l.length := by
  induction l with
  | nil => rfl
  | cons a t ih =>
    simp only [List.countP_cons, List.length_cons]
    by_cases h : p a <;> simp [h] <;> omega

/-- C7: the misclassified list is exactly the sublist, in original order, of
retained records whose labels differ case-insensitively, and its length is
`total - correct` of the overall report on the same records. -/
theorem misclassified_spec (predictions : List Prediction) :
    find_misclassified_images predictions
      = predictions.filter
          (fun p => !(pyLower p.true_label == pyLower p.pred_label)) ∧
    (find_misclassified_images predictions).length
      = (calculate_overall_accuracy predictions).total
        - (calculate_overall_accuracy predictions).correct := by
  have hfilter : find_misclassified_images predictions
      = predictions.filter
          (fun p => !(pyLower p.true_label == pyLower p.pred_label)) := by
    induction predictions with
    | nil => rfl
    | cons p t ih =>
      by_cases h : pyLower p.true_label = pyLower p.pred_label <;>
        simp [find_misclassified_images, List.filter_cons, h, ih]
  refine ⟨hfilter, ?_⟩
  rw [hfilter, overall_total_eq, overall_correct_eq,
    ← List.countP_eq_length_filter]
  have hsplit := countP_bool_split
    (fun p : Prediction => pyLower p.true_label == pyLower p.pred_label)
    predictions
  omega

theorem readAnswerRows_eq (rows : List AnswerRow)
    (d : List (String × String)) :
    readAnswerRows rows d
      = (rows.filter (fun row => !(pyStrip row.label == ""))).foldl
          (fun labels_dict row =>
            dictInsert labels_dict (pyStrip row.filename) (pyStrip row.label))
          d := by
  induction rows generalizing d with
  | nil => rfl
  | cons row rest ih =>
    by_cases h : pyStrip row.label = "" <;>
      simp [readAnswerRows, List.filter_cons, h, ih]

/-- C8: the label reader builds its mapping from exactly the rows whose
stripped label is non-empty — a blank-labeled row is skipped without any
error for that row — and a table that parses but whose rows all have blank
labels makes the loader raise the unreadable-format error, since the
resulting dict is empty. -/
theorem answer_reader_spec (rows : List AnswerRow) :
    readAnswerRows rows []
      = (rows.filter (fun row => !(pyStrip row.label == ""))).foldl
          (fun labels_dict row =>
            dictInsert labels_dict (pyStrip row.filename) (pyStrip row.label))
          [] ∧
    ((∀ row ∈ rows, pyStrip row.label = "") →
      load_answers_from_csv true [some rows] = .error .unreadableFormat) := by
  refine ⟨readAnswerRows_eq rows [], ?_⟩
  intro hall
  have hnone : rows.filter (fun row => !(pyStrip row.label == "")) = [] := by
    rw [List.filter_eq_nil_iff]
    intro row hrow
    simp [hall row hrow]
  have hempty : readAnswerRows rows [] = [] := by
    rw [readAnswerRows_eq rows [], hnone]
    rfl
  simp [load_answers_from_csv, firstSuccess, hempty]

/-- Witness for the C8 theorem on a one-row table whose label is blank. -/
theorem answer_reader_spec_witness :
    (∀ row ∈ [({ filename := "img_1.jpg", label := "   " } : AnswerRow)],
      pyStrip row.label = "") ∧
    load_answers_from_csv true
        [some [({ filename := "img_1.jpg", label := "   " } : AnswerRow)]]
      = .error .unreadableFormat := by
  have h : ∀ row ∈ [({ filename := "img_1.jpg", label := "   " } : AnswerRow)],
      pyStrip row.label = "" := by decide
  exact ⟨h, (answer_reader_spec _).2 h⟩

theorem codepointLe_total : ∀ (as bs : List Char),
    codepointLe as bs = true ∨ codepointLe bs as = true
  | [], _ => Or.inl rfl
  | _ :: _, [] => Or.inr rfl
  | a :: as, b :: bs => by
    rcases Nat.lt_trichotomy a.toNat b.toNat with h | h | h
    · left
      simp [codepointLe, h]
    · have h1 : ¬ a.toNat < b.toNat := by omega
      have h2 : ¬ b.toNat < a.toNat := by omega
      rcases codepointLe_total as bs with hrec | hrec
      · left
        simp [codepointLe, h1, h2, hrec]
      · right
        simp [codepointLe, h1, h2, hrec]
    · right
      simp [codepointLe, h]

theorem codepointLe_trans : ∀ (as bs cs : List Char),
    codepointLe as bs = true → codepointLe bs cs = true →
    codepointLe as cs = true
  | [], _, _, _, _ => rfl
  | _ :: _, [], _, h1, _ => by simp [codepointLe] at h1
  | _ :: _, _ :: _, [], _, h2 => by simp [codepointLe] at h2
  | a :: as, b :: bs, c :: cs, h1, h2 => by
    simp only [codepointLe] at h1 h2 ⊢
    by_cases hab : a.toNat < b.toNat
    · by_cases hbc : b.toNat < c.toNat
      · have hac : a.toNat < c.toNat := by omega
        simp [hac]
      · by_cases hcb : c.toNat < b.toNat
        · simp [hbc, hcb] at h2
        · have hac : a.toNat < c.toNat := by omega
          simp [hac]
    · by_cases hba : b.toNat < a.toNat
      · simp [hab, hba] at h1
      · have h1' : codepointLe as bs = true := by simpa [hab, hba] using h1
        by_cases hbc : b.toNat < c.toNat
        · have hac : a.toNat < c.toNat := by omega
          simp [hac]
        · by_cases hcb : c.toNat < b.toNat
          · simp [hbc, hcb] at h2
          · have h2' : codepointLe bs cs = true := by simpa [hbc, hcb] using h2
            have hac : ¬ a.toNat < c.toNat := by omega
            have hca : ¬ c.toNat < a.toNat := by omega
            simp [hac, hca]
            exact codepointLe_trans as bs cs h1' h2'

/-- C9: on any directory listing, the generated answer template has exactly
one data row per qualifying image (regular file with an admitted extension,
case-insensitively), its rows are a permutation of precisely those
filenames, they are sorted in the code-point lexicographic order Python
sorts strings by, and every label cell is empty. -/
theorem answer_template_spec (entries : List DirEntry) :
    (create_answer_template (get_all_image_files entries)).length
      = (entries.filter templateQualifies).length ∧
    ((create_answer_template (get_all_image_files entries)).map Prod.fst).Perm
      ((entries.filter templateQualifies).map (·.name)) ∧
    List.Sorted (fun a b => pyStrLe a b = true)
      ((create_answer_template (get_all_image_files entries)).map Prod.fst) ∧
    (create_answer_template (get_all_image_files entries)).all
      (fun row => row.2 == "") := by
  haveI htot : IsTotal String (fun a b => pyStrLe a b = true) :=
    ⟨fun a b => codepointLe_total a.data b.data⟩
  haveI htrans : IsTrans String (fun a b => pyStrLe a b = true) :=
    ⟨fun a b c => codepointLe_trans a.data b.data c.data⟩
  have hfst : (create_answer_template (get_all_image_files entries)).map
      Prod.fst = get_all_image_files entries := by
    simp only [create_answer_template, List.map_map]
    exact List.map_id _
  have hperm : (get_all_image_files entries).Perm
      ((entries.filter templateQualifies).map (·.name)) :=
    List.perm_insertionSort _ _
  refine ⟨?_, ?_, ?_, ?_⟩
  · have := hperm.length_eq
    simp [create_answer_template] at this ⊢
    simpa using this
  · rw [hfst]
    exact hperm
  · rw [hfst]
    exact List.sorted_insertionSort _ _
  · simp [create_answer_template, List.all_eq_true]

theorem cropFold_total (c : String) (l : List Prediction) :
    ∀ acc : CropAgg,
    (l.foldl (fun acc prediction =>
      if prediction.true_label = c then
        { total := acc.total + 1
          correct := acc.correct +
            (if pyLower prediction.true_label = pyLower prediction.pred_label
             then 1 else 0)
          confidence_sum := acc.confidence_sum + prediction.pred_confidence }
      else acc) acc).total
      = acc.total + l.countP (fun p => p.true_label == c) := by
  induction l with
  | nil => intro acc; simp
  | cons p t ih =>
    intro acc
    simp only [List.foldl_cons, List.countP_cons]
    rw [ih]
    by_cases h : p.true_label = c
    · simp [h]
      omega
    · simp [h]

theorem cropFold_correct (c : String) (l : List Prediction) :
    ∀ acc : CropAgg,
    (l.foldl (fun acc prediction =>
      if prediction.true_label = c then
        { total := acc.total + 1
          correct := acc.correct +
            (if pyLower prediction.true_label = pyLower prediction.pred_label
             then 1 else 0)
          confidence_sum := acc.confidence_sum + prediction.pred_confidence }
      else acc) acc).correct
      = acc.correct + l.countP (fun p => (p.true_label == c)
          && (pyLower p.true_label == pyLower p.pred_label)) := by
  induction l with
  | nil => intro acc; simp
  | cons p t ih =>
    intro acc
    simp only [List.foldl_cons, List.countP_cons]
    rw [ih]
    by_cases h : p.true_label = c
    · by_cases hm : pyLower p.true_label = pyLower p.pred_label <;>
        simp [h, hm] <;> omega
    · simp [h]

theorem countP_true_label_eq_count (l : List Prediction) (c : String) :
    l.countP (fun p => p.true_label == c)
      = (l.map (·.true_label)).count c := by
  rw [List.count, List.countP_map]
  rfl

theorem cropAgg_total_eq (predictions : List Prediction) (c : String) :
    (cropAgg predictions c).total
      = (predictions.map (·.true_label)).count c := by
  unfold cropAgg
  rw [cropFold_total, countP_true_label_eq_count]
  simp

theorem cropAgg_correct_eq (predictions : List Prediction) (c : String) :
    (cropAgg predictions c).correct
      = ((predictions.filter
          (fun p => pyLower p.true_label == pyLower p.pred_label)).map
          (·.true_label)).count c := by
  unfold cropAgg
  rw [cropFold_correct, List.count, List.countP_map, List.countP_filter]
  simp only [Nat.zero_add]
  rfl

theorem dedup_toFinset (L : List String) : L.dedup.toFinset = L.toFinset := by
  ext c
  simp [List.mem_toFinset, List.mem_dedup]

theorem sum_map_dedup {M : Type} [AddCommMonoid M] (L : List String)
    (f : String → M) :
    (L.dedup.map f).sum = ∑ c ∈ L.toFinset, f c := by
  rw [← dedup_toFinset]
  exact (List.sum_toFinset f (List.nodup_dedup L)).symm

theorem sum_count_toFinset (L : List String) :
    ∑ c ∈ L.toFinset, L.count c = L.length := by
  simpa using Multiset.toFinset_sum_count_eq (↑L : Multiset String)

theorem cropTotal_sum (predictions : List Prediction) :
    ∑ c ∈ (predictions.map (·.true_label)).toFinset,
      (cropAgg predictions c).total = predictions.length := by
  have h : ∀ c ∈ (predictions.map (·.true_label)).toFinset,
      (cropAgg predictions c).total
        = (predictions.map (·.true_label)).count c :=
    fun c _ => cropAgg_total_eq predictions c
  rw [Finset.sum_congr rfl h, sum_count_toFinset, List.length_map]

theorem cropCorrect_sum (predictions : List Prediction) :
    ∑ c ∈ (predictions.map (·.true_label)).toFinset,
      (cropAgg predictions c).correct
      = predictions.countP
          (fun p => pyLower p.true_label == pyLower p.pred_label) := by
  classical
  set ok : Prediction → Bool :=
    fun p => pyLower p.true_label == pyLower p.pred_label with hok
  set Lok := (predictions.filter ok).map (·.true_label) with hLok
  have h : ∀ c ∈ (predictions.map (·.true_label)).toFinset,
      (cropAgg predictions c).correct = Lok.count c :=
    fun c _ => cropAgg_correct_eq predictions c
  rw [Finset.sum_congr rfl h]
  have hsub : Lok.toFinset ⊆ (predictions.map (·.true_label)).toFinset := by
    intro c hc
    rw [List.mem_toFinset] at hc ⊢
    rw [hLok, List.mem_map] at hc
    obtain ⟨p, hp, hpc⟩ := hc
    rw [List.mem_filter] at hp
    rw [List.mem_map]
    exact ⟨p, hp.1, hpc⟩
  have hzero : ∀ c ∈ (predictions.map (·.true_label)).toFinset,
      c ∉ Lok.toFinset → Lok.count c = 0 := by
    intro c _ hc
    rw [List.mem_toFinset] at hc
    exact List.count_eq_zero.mpr hc
  rw [← Finset.sum_subset hsub hzero, sum_count_toFinset, hLok,
    List.length_map, ← List.countP_eq_length_filter]

/-- C6: the per-category statistics recombine to the overall report: the
category totals sum to the overall total, the category correct counts sum
to the overall correct count, and the category accuracies weighted by the
category totals sum to the overall accuracy times the overall total. -/
theorem per_crop_recombine_spec (predictions : List Prediction) :
    ((calculate_per_crop_statistics predictions).map
        (fun e => e.2.total)).sum
      = (calculate_overall_accuracy predictions).total ∧
    ((calculate_per_crop_statistics predictions).map
        (fun e => e.2.correct)).sum
      = (calculate_overall_accuracy predictions).correct ∧
    ((calculate_per_crop_statistics predictions).map
        (fun e => (e.2.total : ℚ) * e.2.accuracy)).sum
      = ((calculate_overall_accuracy predictions).total : ℚ)
        * (calculate_overall_accuracy predictions).accuracy := by
  classical
  have htotal : ((calculate_per_crop_statistics predictions).map
      (fun e => e.2.total)).sum = predictions.length := by
    simp only [calculate_per_crop_statistics, List.map_map]
    rw [sum_map_dedup]
    have h : ∀ c ∈ (predictions.map (·.true_label)).toFinset,
        ((fun e : String × CropStats => e.2.total) ∘
          (fun c => (c, cropStatsOf predictions c))) c
          = (cropAgg predictions c).total := fun c _ => rfl
    rw [Finset.sum_congr rfl h, cropTotal_sum]
  have hcorrect : ((calculate_per_crop_statistics predictions).map
      (fun e => e.2.correct)).sum
      = predictions.countP
          (fun p => pyLower p.true_label == pyLower p.pred_label) := by
    simp only [calculate_per_crop_statistics, List.map_map]
    rw [sum_map_dedup]
    have h : ∀ c ∈ (predictions.map (·.true_label)).toFinset,
        ((fun e : String × CropStats => e.2.correct) ∘
          (fun c => (c, cropStatsOf predictions c))) c
          = (cropAgg predictions c).correct := fun c _ => rfl
    rw [Finset.sum_congr rfl h, cropCorrect_sum]
  refine ⟨by rw [htotal, overall_total_eq], by rw [hcorrect, overall_correct_eq], ?_⟩
  have hweight : ((calculate_per_crop_statistics predictions).map
      (fun e => (e.2.total : ℚ) * e.2.accuracy)).sum
      = 100 * (predictions.countP
          (fun p => pyLower p.true_label == pyLower p.pred_label) : ℚ) := by
    simp only [calculate_per_crop_statistics, List.map_map]
    rw [sum_map_dedup]
    have h : ∀ c ∈ (predictions.map (·.true_label)).toFinset,
        ((fun e : String × CropStats => (e.2.total : ℚ) * e.2.accuracy) ∘
          (fun c => (c, cropStatsOf predictions c))) c
          = 100 * ((cropAgg predictions c).correct : ℚ) := by
      intro c hc
      have hpos : 0 < (cropAgg predictions c).total := by
        rw [cropAgg_total_eq]
        rw [List.mem_toFinset] at hc
        exact List.count_pos_iff.mpr hc
      have ht : ((cropAgg predictions c).total : ℚ) ≠ 0 :=
        Nat.cast_ne_zero.mpr hpos.ne'
      show ((cropAgg predictions c).total : ℚ)
          * (((cropAgg predictions c).correct : ℚ)
            / ((cropAgg predictions c).total : ℚ) * 100)
          = 100 * ((cropAgg predictions c).correct : ℚ)
      field_simp
      ring
    rw [Finset.sum_congr rfl h, ← Finset.mul_sum]
    congr 1
    rw [← Nat.cast_sum, cropCorrect_sum]
  rw [hweight, overall_total_eq, overall_accuracy_eq, overall_total_eq,
    overall_correct_eq]
  by_cases hp : predictions = []
  · simp [hp]
  · have hlen : ((predictions.length : ℚ)) ≠ 0 := by
      simpa using List.length_pos.mpr hp |>.ne'
    field_simp
    ring

end ScoreFiles
